import Mathlib

/-!
A verification development for the Stray-Hub identity-matching engine.

The definitions below are a shallow embedding of the Python backend:

* `backend/config.py` — the `Settings` constants;
* `backend/routers/sightings.py`, `create_sighting_pipeline` (lines 143-199) —
  embedding aggregation, similarity filtering, candidate sorting, match
  persistence and the sighting status transition;
* `backend/routers/search.py`, `search_match` (lines 65-100) — the same
  ranking stage followed by truncation to `max_match_results`;
* `backend/services/firestore_service.py` — `create_profile`,
  `create_profile_from_intake`, `list_profiles`, `add_photo_meta`,
  `delete_photo_meta`, `update_profile_embedding`;
* `backend/routers/profiles.py`, `upload_photo`; `backend/routers/matches.py`,
  `submit_feedback`.

Machine floating-point arithmetic is modelled by exact rational arithmetic
(`ℚ`); the single irrational step (division by a Euclidean norm) is modelled
over `ℝ`.  Firestore documents are modelled as association lists keyed by
document id.  Similarity values entering the ranking stage are the values the
code computes at `sightings.py` line 177 (`float(np.dot(query_vec, other_emb))`
after defensive renormalization); the ranking stage is verified for every
possible list of such values.
-/

/-- Settings.similarity_threshold from backend/config.py line 12. -/
def similarity_threshold : ℚ := 7/10

/-- Settings.max_match_results from backend/config.py line 13. -/
def max_match_results : ℕ := 5

/-- Settings.max_photos_per_profile from backend/config.py line 9. -/
def max_photos_per_profile : ℤ := 5

/-! ## Vector arithmetic (numpy calls in the pipeline) -/

/-- Dot product of two vectors, `np.dot` at sightings.py line 177. -/
def dotQ (a b : List ℚ) : ℚ :=
  (List.zipWith (fun x y => x * y) a b).sum

/-- Sum of squares of a vector; `np.linalg.norm(v)` is its square root. -/
def sumSq (v : List ℚ) : ℚ :=
  (v.map (fun x => x * x)).sum

/-- Element-wise sum of a nonempty family of equal-length vectors. -/
def vecSum : List (List ℚ) → List ℚ
  | [] => []
  | e :: es => es.foldl (fun acc v => List.zipWith (fun x y => x + y) acc v) e

/-- Element-wise mean, `np.mean(embeddings, axis=0)` at sightings.py line 146. -/
def meanVec (embs : List (List ℚ)) : List ℚ :=
  (vecSum embs).map (fun x => x / (embs.length : ℚ))

theorem sumSq_nonneg (v : List ℚ) : 0 ≤ sumSq v := by
  induction v with
  | nil => simp [sumSq]
  | cons x xs ih =>
    simp only [sumSq, List.map_cons, List.sum_cons] at ih ⊢
    have hx : 0 ≤ x * x := mul_self_nonneg x
    linarith

theorem sumSq_eq_zero_iff (v : List ℚ) : sumSq v = 0 ↔ ∀ x ∈ v, x = 0 := by
  induction v with
  | nil => simp [sumSq]
  | cons x xs ih =>
    simp only [sumSq, List.map_cons, List.sum_cons, List.mem_cons] at ih ⊢
    constructor
    · intro h
      have hx : 0 ≤ x * x := mul_self_nonneg x
      have hxs : 0 ≤ (xs.map (fun x => x * x)).sum := sumSq_nonneg xs
      have hx0 : x * x = 0 := by linarith
      have hxz : x = 0 := by
        rcases mul_self_eq_zero.mp hx0 with h0
        exact h0
      refine fun y hy => ?_
      rcases hy with hy | hy
      · exact hy ▸ hxz
      · exact (ih.mp (by linarith)) y hy
    · intro h
      have hxz : x = 0 := h x (Or.inl rfl)
      have hrest : (xs.map (fun x => x * x)).sum = 0 :=
        ih.mpr (fun y hy => h y (Or.inr hy))
      simp [hxz, hrest]

/-! ## Decimal rounding (Python `round(x, 4)` at sightings.py line 184) -/

/-- Round a rational to the nearest integer, ties to even — the idealized
semantics of Python's `round` builtin. -/
def roundHalfEven (x : ℚ) : ℤ :=
  let f := ⌊x⌋
  let r := x - (f : ℚ)
  if r < 1/2 then f
  else if 1/2 < r then f + 1
  else if f % 2 = 0 then f else f + 1

/-- Round to four decimal digits, `round(similarity, 4)`. -/
def round4 (x : ℚ) : ℚ :=
  ((roundHalfEven (x * 10000) : ℚ)) / 10000

/-! ## Threshold filtering (sightings.py lines 172-186, search.py lines 78-97)

The loop appends `MatchCandidate(id, round(similarity, 4))` for every
candidate whose full-precision similarity is at least the threshold. -/

/-- One pass over the scored candidates: keep those with full-precision
similarity at least `t`, storing the rounded similarity. -/
def filterThreshold (t : ℚ) : List (String × ℚ) → List (String × ℚ)
  | [] => []
  | p :: ps =>
    if t ≤ p.2 then (p.1, round4 p.2) :: filterThreshold t ps
    else filterThreshold t ps

theorem mem_filterThreshold {t : ℚ} {l : List (String × ℚ)} {p : String × ℚ} :
    p ∈ filterThreshold t l ↔ ∃ q ∈ l, t ≤ q.2 ∧ p = (q.1, round4 q.2) := by
  induction l with
  | nil => simp [filterThreshold]
  | cons q qs ih =>
    by_cases h : t ≤ q.2
    · simp only [filterThreshold, if_pos h, List.mem_cons, ih, List.mem_cons]
      constructor
      · rintro (rfl | ⟨r, hr, htr, rfl⟩)
        · exact ⟨q, Or.inl rfl, h, rfl⟩
        · exact ⟨r, Or.inr hr, htr, rfl⟩
      · rintro ⟨r, (rfl | hr), htr, rfl⟩
        · exact Or.inl rfl
        · exact Or.inr ⟨r, hr, htr, rfl⟩
    · simp only [filterThreshold, if_neg h, ih, List.mem_cons]
      constructor
      · rintro ⟨r, hr, htr, rfl⟩
        exact ⟨r, Or.inr hr, htr, rfl⟩
      · rintro ⟨r, (rfl | hr), htr, rfl⟩
        · exact absurd htr h
        · exact ⟨r, hr, htr, rfl⟩

/-! ## Stable descending sort (`match_candidates.sort(key=..., reverse=True)`)

Python's `list.sort` is stable: candidates with equal sort key keep their
input order.  The sort key is the *stored* similarity of the candidate,
which at this point is the rounded value.  Stable insertion sort computes
the same list as Python's stable sort. -/

/-- Insert a candidate into a descending-sorted list, before the first entry
whose key is not larger — so that among equal keys the earlier input stays
first. -/
def insertDesc (c : String × ℚ) : List (String × ℚ) → List (String × ℚ)
  | [] => [c]
  | d :: ds => if d.2 ≤ c.2 then c :: d :: ds else d :: insertDesc c ds

/-- Stable sort by stored similarity, descending. -/
def sortDesc : List (String × ℚ) → List (String × ℚ)
  | [] => []
  | c :: cs => insertDesc c (sortDesc cs)

theorem insertDesc_perm (c : String × ℚ) (l : List (String × ℚ)) :
    List.Perm (insertDesc c l) (c :: l) := by
  induction l with
  | nil => simp [insertDesc]
  | cons d ds ih =>
    by_cases h : d.2 ≤ c.2
    · simp [insertDesc, if_pos h]
    · simp only [insertDesc, if_neg h]
      exact (ih.cons d).trans (List.Perm.swap c d ds)

theorem sortDesc_perm (l : List (String × ℚ)) : List.Perm (sortDesc l) l := by
  induction l with
  | nil => simp [sortDesc]
  | cons c cs ih =>
    exact (insertDesc_perm c (sortDesc cs)).trans (ih.cons c)

theorem insertDesc_sorted {c : String × ℚ} {l : List (String × ℚ)}
    (h : l.Pairwise (fun a b => b.2 ≤ a.2)) :
    (insertDesc c l).Pairwise (fun a b => b.2 ≤ a.2) := by
  induction l with
  | nil => simp [insertDesc]
  | cons d ds ih =>
    rcases List.pairwise_cons.mp h with ⟨hd, hds⟩
    by_cases hdc : d.2 ≤ c.2
    · simp only [insertDesc, if_pos hdc]
      refine List.pairwise_cons.mpr ⟨?_, h⟩
      intro b hb
      rcases List.mem_cons.mp hb with rfl | hb
      · exact hdc
      · exact le_trans (hd b hb) hdc
    · simp only [insertDesc, if_neg hdc]
      refine List.pairwise_cons.mpr ⟨?_, ih hds⟩
      intro b hb
      have hb' := (insertDesc_perm c ds).mem_iff.mp hb
      rcases List.mem_cons.mp hb' with rfl | hb'
      · exact le_of_not_le hdc
      · exact hd b hb'

theorem sortDesc_sorted (l : List (String × ℚ)) :
    (sortDesc l).Pairwise (fun a b => b.2 ≤ a.2) := by
  induction l with
  | nil => simp [sortDesc]
  | cons c cs ih => exact insertDesc_sorted ih

theorem insertDesc_filter_key (c : String × ℚ) (l : List (String × ℚ)) (k : ℚ) :
    (insertDesc c l).filter (fun q => q.2 == k) =
      (c :: l).filter (fun q => q.2 == k) := by
  induction l with
  | nil => simp [insertDesc]
  | cons d ds ih =>
    by_cases hdc : d.2 ≤ c.2
    · simp [insertDesc, if_pos hdc]
    · have hlt : c.2 < d.2 := lt_of_not_le hdc
      by_cases hck : c.2 = k
      · have hdk : ¬ d.2 = k := fun hdk =>
          absurd (hdk.trans hck.symm) (ne_of_gt hlt)
        simp only [insertDesc, if_neg hdc]
        simp [List.filter_cons, hck, hdk, ih]
      · by_cases hdk : d.2 = k
        · simp only [insertDesc, if_neg hdc]
          simp [List.filter_cons, hck, hdk, ih]
        · simp only [insertDesc, if_neg hdc]
          simp [List.filter_cons, hck, hdk, ih]

theorem sortDesc_filter_key (l : List (String × ℚ)) (k : ℚ) :
    (sortDesc l).filter (fun q => q.2 == k) = l.filter (fun q => q.2 == k) := by
  induction l with
  | nil => simp [sortDesc]
  | cons c cs ih =>
    rw [sortDesc, insertDesc_filter_key]
    simp only [List.filter_cons]
    by_cases hck : c.2 = k
    · rw [if_pos (by simpa using hck), if_pos (by simpa using hck), ih]
    · rw [if_neg (by simpa using hck), if_neg (by simpa using hck), ih]

/-! ## The two ranking stages -/

/-- Match-candidate list computed and persisted by
`create_sighting_pipeline` (sightings.py lines 179-188): threshold filter,
then stable descending sort.  No truncation is applied. -/
def pipeline_match_candidates (scored : List (String × ℚ)) (t : ℚ) :
    List (String × ℚ) :=
  sortDesc (filterThreshold t scored)

/-- Match-candidate list returned by `search_match` (search.py lines
85-100): the same filter and sort, then truncation to `maxResults`
(`match_candidates[: settings.max_match_results]`). -/
def search_match_candidates (scored : List (String × ℚ)) (t : ℚ)
    (maxResults : ℕ) : List (String × ℚ) :=
  (pipeline_match_candidates scored t).take maxResults

theorem mem_pipeline_match_candidates {scored : List (String × ℚ)} {t : ℚ}
    {p : String × ℚ} :
    p ∈ pipeline_match_candidates scored t ↔
      ∃ q ∈ scored, t ≤ q.2 ∧ p = (q.1, round4 q.2) := by
  rw [pipeline_match_candidates,
    (sortDesc_perm (filterThreshold t scored)).mem_iff]
  exact mem_filterThreshold

/-! ## Embedding aggregation (sightings.py lines 143-150, search.py 65-71) -/

/-- Sum of squares over the reals; the squared Euclidean norm. -/
noncomputable def sumSqR (l : List ℝ) : ℝ :=
  (l.map (fun x => x * x)).sum

theorem sumSq_cons (x : ℚ) (xs : List ℚ) : sumSq (x :: xs) = x * x + sumSq xs := by
  simp [sumSq]

/-- Normalization step `if norm > 0: avg = avg / norm` (sightings.py lines
147-149), carried out over ℝ since the Euclidean norm is irrational in
general. -/
noncomputable def normalizeR (v : List ℚ) : List ℝ :=
  if 0 < Real.sqrt ((sumSq v : ℚ) : ℝ) then
    v.map (fun x : ℚ => (x : ℝ) / Real.sqrt ((sumSq v : ℚ) : ℝ))
  else
    v.map (fun x : ℚ => (x : ℝ))

/-- The embedding aggregator (sightings.py lines 143-150): collect the
successful per-photo embeddings, return `none` when there are none, and
otherwise the re-normalized element-wise mean. -/
noncomputable def aggregate_embeddings (attempts : List (Option (List ℚ))) :
    Option (List ℝ) :=
  match attempts.filterMap id with
  | [] => none
  | e :: es => some (normalizeR (meanVec (e :: es)))

theorem sumSqR_map_div (v : List ℚ) (c : ℝ) :
    sumSqR (v.map (fun x : ℚ => (x : ℝ) / c)) = ((sumSq v : ℚ) : ℝ) / (c * c) := by
  induction v with
  | nil => simp [sumSqR, sumSq]
  | cons x xs ih =>
    simp only [List.map_cons, sumSqR, List.sum_cons] at ih ⊢
    rw [ih, sumSq_cons, div_mul_div_comm]
    push_cast
    rw [div_add_div_same]

theorem normalizeR_of_sumSq_eq_zero {v : List ℚ} (h : sumSq v = 0) :
    normalizeR v = v.map (fun x : ℚ => (x : ℝ)) := by
  rw [normalizeR, if_neg]
  rw [h]
  simp

theorem normalizeR_of_sumSq_ne_zero {v : List ℚ} (h : sumSq v ≠ 0) :
    normalizeR v =
      v.map (fun x : ℚ => (x : ℝ) / Real.sqrt ((sumSq v : ℚ) : ℝ)) := by
  have h0 : (0 : ℝ) < ((sumSq v : ℚ) : ℝ) := by
    exact_mod_cast lt_of_le_of_ne (sumSq_nonneg v) (Ne.symm h)
  rw [normalizeR, if_pos (Real.sqrt_pos.mpr h0)]

theorem sumSqR_normalizeR {v : List ℚ} (h : sumSq v ≠ 0) :
    sumSqR (normalizeR v) = 1 := by
  have h0 : (0 : ℝ) < ((sumSq v : ℚ) : ℝ) := by
    exact_mod_cast lt_of_le_of_ne (sumSq_nonneg v) (Ne.symm h)
  rw [normalizeR_of_sumSq_ne_zero h, sumSqR_map_div,
    Real.mul_self_sqrt (le_of_lt h0)]
  exact div_self (ne_of_gt h0)

/-! ## Sighting status after embed plus match (sightings.py lines 152-199) -/

inductive SightingStatus where
  | pending
  | processing
  | matched
  | no_match
deriving DecidableEq

/-- Observable outcome of the embed-and-match phase for one sighting: its
final status, the MatchResult document persisted under its id (if any), and
the candidate list returned to the caller. -/
structure PipelineOutcome where
  status : SightingStatus
  matchResult : Option (List (String × ℚ))
  matchCandidates : List (String × ℚ)
deriving DecidableEq

/-- The status and persistence logic of `create_sighting_pipeline`
(sightings.py lines 152-199).  `aggregated` is the averaged embedding (`none`
when no photo embedded, line 144); `scored` is the list of (id, similarity)
pairs computed at lines 172-177 for the already-embedded records.  The store
writes `create_match_result` and `update_sighting_status` are absent from
the source tree; modelled from the spec (§4.3) as idempotent overwrites
keyed by the sighting id, so the outcome records them directly. -/
def create_sighting_pipeline (aggregated : Option (List ℚ))
    (scored : List (String × ℚ)) (t : ℚ) : PipelineOutcome :=
  match aggregated with
  | none =>
    { status := SightingStatus.pending, matchResult := none,
      matchCandidates := [] }
  | some _ =>
    let cands := pipeline_match_candidates scored t
    if cands = [] then
      { status := SightingStatus.no_match, matchResult := none,
        matchCandidates := cands }
    else
      { status := SightingStatus.matched, matchResult := some cands,
        matchCandidates := cands }

/-! ## Self-exclusion of the sighting being matched -/

/-- A stored sighting record as seen by the matching pipeline. -/
structure SRecord where
  id : String
  hasEmbedding : Bool
  embedding : List ℚ
deriving DecidableEq

/-- Modelled from the spec: `list_sightings_with_embeddings(db, exclude_id=...)`
is called at sightings.py line 170 but its definition is absent from the
source tree.  Per spec §4.3, embed+match runs against every other
already-embedded record with mandatory self-exclusion, so it returns the
records carrying an embedding, excluding the given id. -/
def list_sightings_with_embeddings (records : List SRecord)
    (excludeId : String) : List SRecord :=
  records.filter (fun r => r.hasEmbedding && r.id != excludeId)

/-- The candidate list the pipeline produces for sighting `sid`: score each
record returned by `list_sightings_with_embeddings` (the similarity
computation of lines 173-177 is abstracted as `simFn`), then filter, round
and sort as at lines 179-188. -/
def pipeline_candidates_for (records : List SRecord) (simFn : SRecord → ℚ)
    (t : ℚ) (sid : String) : List (String × ℚ) :=
  pipeline_match_candidates
    ((list_sightings_with_embeddings records sid).map (fun r => (r.id, simFn r))) t

/-! ## Association-list store primitives

Firestore collections are modelled as association lists keyed by document
id; `set` is an idempotent keyed overwrite, matching the document-store
interface of spec section 6. -/

/-- Look up a document by id. -/
def lookupAssoc {α : Type} : List (String × α) → String → Option α
  | [], _ => none
  | (k', v) :: rest, k => if k' = k then some v else lookupAssoc rest k

/-- Overwrite (or create) the document with the given id. -/
def setAssoc {α : Type} : List (String × α) → String → α → List (String × α)
  | [], k, v => [(k, v)]
  | (k', v') :: rest, k, v =>
    if k' = k then (k, v) :: rest else (k', v') :: setAssoc rest k v

/-- Delete the document with the given id. -/
def removeAssoc {α : Type} (l : List (String × α)) (k : String) :
    List (String × α) :=
  l.filter (fun p => p.1 != k)

theorem lookupAssoc_setAssoc_self {α : Type} (l : List (String × α))
    (k : String) (v : α) : lookupAssoc (setAssoc l k v) k = some v := by
  induction l with
  | nil => simp [setAssoc, lookupAssoc]
  | cons p rest ih =>
    by_cases h : p.1 = k
    · simp [setAssoc, if_pos h, lookupAssoc]
    · simp [setAssoc, if_neg h, lookupAssoc, if_neg h, ih]

/-! ## Profile sequence numbering (firestore_service.py lines 31-126) -/

/-- State of the shared `counters/profiles` document together with the
sequence numbers handed out so far (in completion order). -/
structure CounterState where
  count : ℕ
  assigned : List (ℕ × ℕ)
deriving DecidableEq

/-- One store round trip of `create_profile` (firestore_service.py lines
35-38).  `inc` is the atomic `counter_ref.set({"count": Increment(1)},
merge=True)`; `readAssign` is the separate `counter_ref.get()` whose result
becomes the caller's profile number.  Because they are two distinct round
trips, steps of concurrent callers may interleave between them. -/
inductive CreateProfileStep where
  | inc (pid : ℕ)
  | readAssign (pid : ℕ)
deriving DecidableEq

/-- Effect of a single `create_profile` store operation.  The read applies
the code's fallback `.get("count", 1) if counter_snap.exists else 1`: the
counter document exists once any increment ran, i.e. once `count > 0`. -/
def create_profile_step (s : CounterState) : CreateProfileStep → CounterState
  | CreateProfileStep.inc _ =>
    { s with count := s.count + 1 }
  | CreateProfileStep.readAssign pid =>
    { s with assigned :=
        s.assigned ++ [(pid, if s.count = 0 then 1 else s.count)] }

/-- Run an interleaved schedule of `create_profile` store operations. -/
def create_profile_run (steps : List CreateProfileStep) (s : CounterState) :
    CounterState :=
  steps.foldl create_profile_step s

/-- The transactional path of `create_profile_from_intake`
(firestore_service.py lines 79-123): the counter read and the conditional
write run inside one serializable transaction, so each creation is a single
atomic step that reads the counter, writes `count + 1`, and assigns it. -/
def create_profile_from_intake_txn (s : CounterState) (pid : ℕ) :
    CounterState :=
  { count := s.count + 1, assigned := s.assigned ++ [(pid, s.count + 1)] }

/-- Run a sequence of serialized intake creations. -/
def intake_run (pids : List ℕ) (s : CounterState) : CounterState :=
  pids.foldl create_profile_from_intake_txn s

theorem intake_run_assigned (pids : List ℕ) (s : CounterState) :
    (intake_run pids s).assigned.map Prod.snd =
      s.assigned.map Prod.snd ++ List.range' (s.count + 1) pids.length 1 := by
  induction pids generalizing s with
  | nil => simp [intake_run]
  | cons p ps ih =>
    have step : intake_run (p :: ps) s =
        intake_run ps (create_profile_from_intake_txn s p) := rfl
    rw [step, ih]
    simp [create_profile_from_intake_txn, List.length_cons, List.range'_succ]

/-! ## Match feedback (matches.py lines 26-41, spec section 4.3 transition 3) -/

/-- MatchResult feedback status. -/
inductive MatchStatus where
  | pending
  | confirmed
  | rejected
deriving DecidableEq

/-- A MatchResult document, keyed one-to-one by sighting id. -/
structure MatchResult where
  candidates : List (String × ℚ)
  status : MatchStatus
  confirmedProfileId : Option String
deriving DecidableEq

/-- The store as seen by the feedback endpoint. -/
structure MatchStore where
  sightings : List (String × SightingStatus)
  matchResults : List (String × MatchResult)
deriving DecidableEq

/-- API error taxonomy (spec section 7), restricted to what these handlers
raise. -/
inductive ApiError where
  | notFound
  | limitExceeded
deriving DecidableEq

/-- Modelled from the spec: `update_match_feedback` is called at matches.py
line 35 but its definition is absent from the source tree.  Per spec §4.3
transition 3, it requires an existing MatchResult keyed by the sighting id
(yielding nothing when absent), updates the MatchResult status and, when
supplied, the confirmed reference id, then derives the sighting status:
confirmed gives matched, rejected gives no_match. -/
def update_match_feedback (st : MatchStore) (sid : String)
    (newStatus : MatchStatus) (refId : Option String) :
    Option (MatchStore × MatchResult) :=
  match lookupAssoc st.matchResults sid with
  | none => none
  | some mr =>
    let mr2 : MatchResult :=
      { mr with
        status := newStatus,
        confirmedProfileId :=
          match refId with
          | some r => some r
          | none => mr.confirmedProfileId }
    let st2 : MatchStore := { st with matchResults := setAssoc st.matchResults sid mr2 }
    let st3 : MatchStore :=
      match newStatus with
      | MatchStatus.confirmed =>
        { st2 with sightings := setAssoc st2.sightings sid SightingStatus.matched }
      | MatchStatus.rejected =>
        { st2 with sightings := setAssoc st2.sightings sid SightingStatus.no_match }
      | MatchStatus.pending => st2
    some (st3, mr2)

/-- The feedback endpoint `submit_feedback` (matches.py lines 26-41): 404
when the sighting is absent, otherwise `update_match_feedback`, and 404 when
that finds no MatchResult.  An error is raised before any write, so the
store is returned unchanged in the error cases. -/
def submit_feedback (st : MatchStore) (sid : String) (newStatus : MatchStatus)
    (refId : Option String) : MatchStore × Except ApiError MatchResult :=
  match lookupAssoc st.sightings sid with
  | none => (st, Except.error ApiError.notFound)
  | some _ =>
    match update_match_feedback st sid newStatus refId with
    | none => (st, Except.error ApiError.notFound)
    | some (st2, mr) => (st2, Except.ok mr)

/-! ## Profile photo registry (firestore_service.py lines 200-354,
profiles.py lines 236-265) -/

/-- A photo metadata document in a profile's photos subcollection. -/
structure PhotoRec where
  storagePath : String
  angle : Option String
deriving DecidableEq

/-- A profile document, restricted to the fields the registry operations
touch. -/
structure Profile where
  photoCount : ℤ
  facePhotoId : Option String
  hasEmbedding : Bool
  embedding : Option (List ℚ)
  modelVersion : Option String
  photos : List (String × PhotoRec)
deriving DecidableEq

/-- The profiles collection. -/
structure ProfileStore where
  profiles : List (String × Profile)
deriving DecidableEq

/-- Apply an update to the profile document with the given id, leaving every
other document unchanged. -/
def modifyProfile (st : ProfileStore) (pid : String) (f : Profile → Profile) :
    ProfileStore :=
  { profiles := st.profiles.map (fun p => if p.1 = pid then (p.1, f p.2) else p) }

/-- Per-profile effect of `add_photo_meta` (firestore_service.py lines
200-224): store the photo document, increment photo_count, and when the
angle is the canonical marker "face", point face_photo_id at the new photo
(last write wins). -/
def add_photo_meta_profile (photoId storagePath : String)
    (angle : Option String) (pr : Profile) : Profile :=
  { pr with
    photos := setAssoc pr.photos photoId { storagePath := storagePath, angle := angle },
    photoCount := pr.photoCount + 1,
    facePhotoId := if angle = some "face" then some photoId else pr.facePhotoId }

/-- Store-level `add_photo_meta`. -/
def add_photo_meta (st : ProfileStore) (pid photoId storagePath : String)
    (angle : Option String) : ProfileStore :=
  modifyProfile st pid (add_photo_meta_profile photoId storagePath angle)

/-- Per-profile effect of `delete_photo_meta` (firestore_service.py lines
227-248) once the photo document `ph` was found: delete the photo document,
decrement photo_count, and when the removed photo was the canonical one,
clear face_photo_id.  The embedding fields are not touched. -/
def delete_photo_meta_profile (photoId : String) (ph : PhotoRec)
    (pr : Profile) : Profile :=
  { pr with
    photos := removeAssoc pr.photos photoId,
    photoCount := pr.photoCount - 1,
    facePhotoId := if ph.angle = some "face" then none else pr.facePhotoId }

/-- Store-level `delete_photo_meta`: yields the deleted photo's storage path,
or nothing when the photo document is absent. -/
def delete_photo_meta (st : ProfileStore) (pid photoId : String) :
    Option (ProfileStore × String) :=
  match lookupAssoc st.profiles pid with
  | none => none
  | some pr =>
    match lookupAssoc pr.photos photoId with
    | none => none
    | some ph =>
      some (modifyProfile st pid (delete_photo_meta_profile photoId ph),
        ph.storagePath)

/-- Per-profile effect of `update_profile_embedding` (firestore_service.py
lines 345-354): store the embedding and model version and set
has_embedding true. -/
def update_profile_embedding_profile (embedding : List ℚ)
    (modelVersion : String) (pr : Profile) : Profile :=
  { pr with
    embedding := some embedding,
    modelVersion := some modelVersion,
    hasEmbedding := true }

/-- Store-level `update_profile_embedding`. -/
def update_profile_embedding (st : ProfileStore) (pid : String)
    (embedding : List ℚ) (modelVersion : String) : ProfileStore :=
  modifyProfile st pid (update_profile_embedding_profile embedding modelVersion)

/-- The photo upload endpoint `upload_photo` (profiles.py lines 236-265):
404 when the profile is absent; when photo_count has reached
max_photos_per_profile the request is rejected before any mutation;
otherwise the photo is stored via `add_photo_meta` with no angle. -/
def upload_photo (st : ProfileStore) (pid photoId : String) :
    ProfileStore × Except ApiError String :=
  match lookupAssoc st.profiles pid with
  | none => (st, Except.error ApiError.notFound)
  | some pr =>
    if max_photos_per_profile ≤ pr.photoCount then
      (st, Except.error ApiError.limitExceeded)
    else
      (add_photo_meta st pid photoId
        ("profiles/" ++ pid ++ "/photos/" ++ photoId ++ ".jpg") none,
        Except.ok photoId)

/-! ## Cursor pagination (firestore_service.py lines 136-159)

The collection is modelled as the list of document ids in the order the
query returns them: created_at descending with Firestore's implicit
document-id tiebreak, after the optional equality filter.  That order is
fixed for a given collection state, which is what claim C8 quantifies
over. -/

/-- Position the query after the cursor document (lines 147-150):
`start_after` skips every record up to and including the cursor; a cursor
that no longer resolves to a document degrades to the full query. -/
def cursorQuery (coll : List String) : Option String → List String
  | none => coll
  | some c => if c ∈ coll then (coll.dropWhile (fun x => x != c)).tail else coll

/-- One page of `list_profiles` (lines 152-159): fetch `limit + 1` records;
when more than `limit` arrived, expose the limit-th record's id as the next
cursor and truncate the page to `limit`. -/
def list_profiles (coll : List String) (cursor : Option String) (limit : ℕ) :
    List String × Option String :=
  let docs := (cursorQuery coll cursor).take (limit + 1)
  if limit < docs.length then (docs.take limit, docs[limit - 1]?)
  else (docs, none)

/-- Follow `next_cursor` until it is null, concatenating the pages.  The
fuel bound only serves termination; `coll.length + 1` always suffices. -/
def paginateAll (coll : List String) (limit : ℕ) :
    ℕ → Option String → List String
  | 0, _ => []
  | fuel + 1, cursor =>
    match list_profiles coll cursor limit with
    | (page, none) => page
    | (page, some c) => page ++ paginateAll coll limit fuel (some c)

theorem dropWhile_bne_append (pre r : List String) (c : String)
    (hpre : c ∉ pre) :
    (pre ++ r).dropWhile (fun x => x != c) = r.dropWhile (fun x => x != c) := by
  induction pre with
  | nil => rfl
  | cons x xs ih =>
    have hx : x ≠ c := fun h => hpre (h ▸ List.mem_cons_self x xs)
    have hxs : c ∉ xs := fun h => hpre (List.mem_cons_of_mem x h)
    simp only [List.cons_append, List.dropWhile_cons]
    rw [if_pos (by simpa using hx)]
    exact ih hxs

theorem dropWhile_bne_cons_self (a b : List String) (c : String) (ha : c ∉ a) :
    (a ++ c :: b).dropWhile (fun x => x != c) = c :: b := by
  rw [dropWhile_bne_append a (c :: b) c ha]
  simp [List.dropWhile_cons]

theorem cursorQuery_drop (pre r : List String) (c : String)
    (hnd : (pre ++ r).Nodup) (L : ℕ) (hL : 1 ≤ L)
    (hidx : L - 1 < r.length) (hc : r[L - 1] = c) :
    cursorQuery (pre ++ r) (some c) = r.drop L := by
  have hL1 : L - 1 + 1 = L := by omega
  have hsplit : r = r.take (L - 1) ++ c :: r.drop L := by
    conv_lhs => rw [← List.take_append_drop (L - 1) r]
    rw [List.drop_eq_getElem_cons hidx, hL1, hc]
  have hcr : c ∈ r := by
    rw [hsplit]; exact List.mem_append_right _ (List.mem_cons_self c _)
  have hndp := List.nodup_append.mp hnd
  have hcpre : c ∉ pre := fun h => hndp.2.2 h hcr
  have hcoll : c ∈ pre ++ r := List.mem_append_right pre hcr
  have hctake : c ∉ r.take (L - 1) := by
    have hndr : r.Nodup := hndp.2.1
    rw [hsplit] at hndr
    have := (List.nodup_append.mp hndr).2.2
    intro hmem
    exact this hmem (List.mem_cons_self c _)
  rw [cursorQuery, if_pos hcoll]
  conv_lhs => rw [hsplit]
  rw [← List.append_assoc]
  rw [dropWhile_bne_cons_self (pre ++ r.take (L - 1)) (r.drop L) c
    (by simp [hcpre, hctake])]
  rfl

theorem list_profiles_full {coll : List String} {cursor : Option String}
    {r : List String} (L : ℕ) (hq : cursorQuery coll cursor = r)
    (hr : r.length ≤ L) : list_profiles coll cursor L = (r, none) := by
  simp only [list_profiles, hq]
  rw [List.take_of_length_le (le_trans hr (Nat.le_succ L))]
  rw [if_neg (by omega)]

theorem list_profiles_more {coll : List String} {cursor : Option String}
    {r : List String} {L : ℕ} (hq : cursorQuery coll cursor = r)
    (hr : L < r.length) :
    list_profiles coll cursor L = (r.take L, r[L - 1]?) := by
  have hdl : (r.take (L + 1)).length = L + 1 := by
    rw [List.length_take]; omega
  simp only [list_profiles, hq]
  rw [if_pos (by rw [hdl]; omega)]
  have h1 : (r.take (L + 1)).take L = r.take L := by
    rw [List.take_take]; congr 1; omega
  have h2 : (r.take (L + 1))[L - 1]? = r[L - 1]? :=
    List.getElem?_take_of_lt (by omega)
  rw [h1, h2]

theorem paginateAll_go (coll : List String) (L : ℕ) (hL : 1 ≤ L)
    (hnd : coll.Nodup) :
    ∀ fuel (r pre : List String) (cursor : Option String),
      cursorQuery coll cursor = r → coll = pre ++ r → r.length < fuel →
      paginateAll coll L fuel cursor = r := by
  intro fuel
  induction fuel with
  | zero =>
    intro r pre cursor _ _ h
    omega
  | succ fuel ih =>
    intro r pre cursor hq hsplit hlen
    by_cases hcase : r.length ≤ L
    · have hfull := list_profiles_full L hq hcase
      simp [paginateAll, hfull]
    · push_neg at hcase
      have hidx : L - 1 < r.length := by omega
      have hc : r[L - 1]? = some (r.get ⟨L - 1, hidx⟩) := by
        rw [List.getElem?_eq_getElem hidx]
        rfl
      have hstep := list_profiles_more hq hcase
      have hdrop : cursorQuery coll (some (r.get ⟨L - 1, hidx⟩)) = r.drop L := by
        rw [hsplit]
        exact cursorQuery_drop pre r _ (hsplit ▸ hnd) L hL hidx rfl
      have hpre2 : coll = (pre ++ r.take L) ++ r.drop L := by
        rw [hsplit, List.append_assoc, List.take_append_drop]
      have hlen2 : (r.drop L).length < fuel := by
        rw [List.length_drop]; omega
      have hrec := ih (r.drop L) (pre ++ r.take L) (some (r.get ⟨L - 1, hidx⟩))
        hdrop hpre2 hlen2
      simp only [paginateAll, hstep, hc, hrec]
      exact List.take_append_drop L r

/-! ## Claim theorems -/

theorem sortDesc_length (l : List (String × ℚ)) :
    (sortDesc l).length = l.length :=
  (sortDesc_perm l).length_eq

/-- C1 (amended): for every scored candidate list, threshold t, cut-off m
and score value k, the pipeline's candidate list consists of exactly the
candidates whose full-precision similarity is at least t — membership in
both directions, and as a multiset: it is a permutation of the raw pass of
the filter loop — each entry carrying its four-decimal rounded score; it is
sorted non-increasingly by stored score, and ties are broken by input
order: for every stored score k, the entries scoring k appear in the same
order in which the filter loop appended them.  The ephemeral search path
(search.py line 100) is the same list truncated to at most m results; the
sighting pipeline applies no truncation, so only the search result is
bounded by m. -/
theorem c1_ranker_spec (scored : List (String × ℚ)) (t : ℚ) (m : ℕ) (k : ℚ) :
    (∀ p, p ∈ pipeline_match_candidates scored t ↔
      ∃ q ∈ scored, t ≤ q.2 ∧ p = (q.1, round4 q.2)) ∧
    List.Perm (pipeline_match_candidates scored t) (filterThreshold t scored) ∧
    ((pipeline_match_candidates scored t).filter (fun q => q.2 == k) =
      (filterThreshold t scored).filter (fun q => q.2 == k)) ∧
    (pipeline_match_candidates scored t).Pairwise (fun a b => b.2 ≤ a.2) ∧
    (∀ p ∈ search_match_candidates scored t m,
      ∃ q ∈ scored, t ≤ q.2 ∧ p = (q.1, round4 q.2)) ∧
    (search_match_candidates scored t m).Pairwise (fun a b => b.2 ≤ a.2) ∧
    (search_match_candidates scored t m).length ≤ m ∧
    search_match_candidates scored t m =
      (pipeline_match_candidates scored t).take m := by
  refine ⟨fun p => mem_pipeline_match_candidates, sortDesc_perm _,
    sortDesc_filter_key _ k, sortDesc_sorted _, ?_, ?_, ?_, rfl⟩
  · intro p hp
    exact mem_pipeline_match_candidates.mp (List.mem_of_mem_take hp)
  · exact List.Pairwise.sublist (List.take_sublist m _) (sortDesc_sorted _)
  · have hlen : (search_match_candidates scored t m).length =
        min m (pipeline_match_candidates scored t).length := by
      simp [search_match_candidates, List.length_take]
    omega

/-- Witness for c1_ranker_spec: on the single candidate with similarity
0.9 against the settings threshold 0.7, the membership equivalence holds
concretely in the completeness direction — the passing candidate does
appear in the pipeline's list. -/
theorem c1_ranker_spec_witness :
    (("a", round4 ((9:ℚ)/10)) : String × ℚ) ∈
      pipeline_match_candidates [("a", (9:ℚ)/10)] similarity_threshold :=
  ((c1_ranker_spec [("a", (9:ℚ)/10)] similarity_threshold max_match_results
      ((9:ℚ)/10)).1
    ("a", round4 ((9:ℚ)/10))).mpr
    ⟨("a", (9:ℚ)/10), by norm_num, by norm_num [similarity_threshold], rfl⟩

/-- C1 fails on the code as stated: create_sighting_pipeline performs no
truncation, so with six candidates above the threshold the persisted and
returned match-candidate list has six entries, exceeding
settings.max_match_results = 5. -/
theorem c1_counterexample :
    max_match_results <
      (pipeline_match_candidates
        [("c1", (9:ℚ)/10), ("c2", (9:ℚ)/10), ("c3", (9:ℚ)/10),
         ("c4", (9:ℚ)/10), ("c5", (9:ℚ)/10), ("c6", (9:ℚ)/10)]
        similarity_threshold).length := by
  rw [pipeline_match_candidates, (sortDesc_perm _).length_eq]
  norm_num [filterThreshold, similarity_threshold, max_match_results]

/-- C6: the sighting's own id never appears in its match-candidate list.
The candidate records are fetched with the sighting itself excluded, and
filtering, rounding and sorting never introduce new ids. -/
theorem c6_self_exclusion (records : List SRecord) (simFn : SRecord → ℚ)
    (t : ℚ) (sid : String) :
    (pipeline_candidates_for records simFn t sid).all
      (fun p => p.1 != sid) = true := by
  rw [List.all_eq_true]
  intro p hp
  rw [pipeline_candidates_for] at hp
  rcases mem_pipeline_match_candidates.mp hp with ⟨q, hq, _, rfl⟩
  rcases List.mem_map.mp hq with ⟨r, hr, rfl⟩
  rcases List.mem_filter.mp hr with ⟨_, hcond⟩
  simp only [Bool.and_eq_true, bne_iff_ne] at hcond
  simpa using hcond.2

/-- C7 (amended): the threshold test uses the full-precision similarity, but
the similarity is rounded to four decimals when the MatchCandidate is
constructed, before sorting: the sort orders by the rounded score, and
candidates with equal rounded scores keep their input order even when their
full-precision similarities differ.  The rounded score is also what the
candidate carries into persistence and the response. -/
theorem c7_rounding_spec (scored : List (String × ℚ)) (t k : ℚ) :
    (∀ p ∈ pipeline_match_candidates scored t,
      ∃ q ∈ scored, t ≤ q.2 ∧ p = (q.1, round4 q.2)) ∧
    ((pipeline_match_candidates scored t).filter (fun q => q.2 == k) =
      (filterThreshold t scored).filter (fun q => q.2 == k)) ∧
    (pipeline_match_candidates scored t).Pairwise (fun a b => b.2 ≤ a.2) :=
  ⟨fun _ hp => mem_pipeline_match_candidates.mp hp,
    sortDesc_filter_key _ k, sortDesc_sorted _⟩

/-- Witness for c7_rounding_spec: the membership property at a concrete
one-candidate input with similarity 0.8. -/
theorem c7_rounding_spec_witness :
    ∃ q ∈ [("b", (4:ℚ)/5)], (7:ℚ)/10 ≤ q.2 ∧
      (("b", round4 ((4:ℚ)/5)) : String × ℚ) = (q.1, round4 q.2) :=
  (c7_rounding_spec [("b", (4:ℚ)/5)] ((7:ℚ)/10) 0).1
    ("b", round4 ((4:ℚ)/5))
    (by norm_num [pipeline_match_candidates, filterThreshold, sortDesc,
      insertDesc])

/-- C7 fails on the code as stated: candidates a (similarity 0.70988) and b
(similarity 0.70992) have different full-precision similarities that both
round to 0.7099; the pipeline stores the rounded scores and sorts by them,
leaving the pair in input order a, b rather than in full-precision
descending order b, a. -/
theorem c7_counterexample :
    pipeline_match_candidates
        [("a", 70988/100000), ("b", 70992/100000)] similarity_threshold =
      [("a", 7099/10000), ("b", 7099/10000)] ∧
    (70988/100000 : ℚ) < 70992/100000 := by
  constructor
  · norm_num [pipeline_match_candidates, filterThreshold, sortDesc,
      insertDesc, similarity_threshold, round4, roundHalfEven]
  · norm_num

/-- C2: after the embed-and-match phase, the sighting status is matched iff
a MatchResult with at least one candidate was persisted for it; with an
aggregated vector but zero passing candidates the status becomes no_match
and no MatchResult document is created; with no aggregated vector the
sighting keeps its initial pending status and no MatchResult exists. -/
theorem c2_status_iff_matchresult (aggregated : Option (List ℚ))
    (scored : List (String × ℚ)) (t : ℚ) :
    ((create_sighting_pipeline aggregated scored t).status =
        SightingStatus.matched ↔
      ∃ mr, (create_sighting_pipeline aggregated scored t).matchResult =
          some mr ∧ mr ≠ []) ∧
    (∀ v, aggregated = some v → pipeline_match_candidates scored t = [] →
      (create_sighting_pipeline aggregated scored t).status =
        SightingStatus.no_match ∧
      (create_sighting_pipeline aggregated scored t).matchResult = none) ∧
    (aggregated = none →
      (create_sighting_pipeline aggregated scored t).status =
        SightingStatus.pending ∧
      (create_sighting_pipeline aggregated scored t).matchResult = none) := by
  cases aggregated with
  | none => simp [create_sighting_pipeline]
  | some v =>
    by_cases h : pipeline_match_candidates scored t = []
    · simp [create_sighting_pipeline, h]
    · simp [create_sighting_pipeline, h]

/-- Witness for c2_status_iff_matchresult: a sighting whose photos embedded
but with an empty candidate population ends no_match with no MatchResult. -/
theorem c2_status_iff_matchresult_witness :
    (create_sighting_pipeline (some [(1:ℚ)]) [] similarity_threshold).status =
      SightingStatus.no_match ∧
    (create_sighting_pipeline (some [(1:ℚ)]) [] similarity_threshold).matchResult =
      none :=
  (c2_status_iff_matchresult (some [(1:ℚ)]) [] similarity_threshold).2.1
    [(1:ℚ)] rfl rfl

/-- C3: the aggregator yields none exactly when no per-photo embedding
succeeded; otherwise it yields the element-wise mean of the successful
vectors divided by its Euclidean norm; when the mean has norm zero it is
returned un-normalized and is the all-zero vector; when the norm is nonzero
the result has unit norm (its sum of squares is one). -/
theorem c3_aggregator (attempts : List (Option (List ℚ))) :
    (attempts.filterMap id = [] → aggregate_embeddings attempts = none) ∧
    (∀ e es, attempts.filterMap id = e :: es →
      aggregate_embeddings attempts = some (normalizeR (meanVec (e :: es))) ∧
      (sumSq (meanVec (e :: es)) = 0 →
        normalizeR (meanVec (e :: es)) =
          (meanVec (e :: es)).map (fun x : ℚ => (x : ℝ)) ∧
        ∀ x ∈ meanVec (e :: es), x = 0) ∧
      (sumSq (meanVec (e :: es)) ≠ 0 →
        normalizeR (meanVec (e :: es)) =
          (meanVec (e :: es)).map (fun x : ℚ =>
            (x : ℝ) / Real.sqrt ((sumSq (meanVec (e :: es)) : ℚ) : ℝ)) ∧
        sumSqR (normalizeR (meanVec (e :: es))) = 1)) := by
  refine ⟨fun h => ?_, fun e es h => ?_⟩
  · simp only [aggregate_embeddings, h]
  · refine ⟨by simp only [aggregate_embeddings, h], fun h0 =>
      ⟨normalizeR_of_sumSq_eq_zero h0, (sumSq_eq_zero_iff _).mp h0⟩,
      fun hne => ⟨normalizeR_of_sumSq_ne_zero hne, sumSqR_normalizeR hne⟩⟩

/-- Witness for c3_aggregator: aggregating the two unit vectors [1,0] and
[0,1] (with one failed attempt in between) produces a vector of unit norm. -/
theorem c3_aggregator_witness :
    sumSqR (normalizeR (meanVec [[(1:ℚ), 0], [0, 1]])) = 1 := by
  have h := (c3_aggregator [some [(1:ℚ), 0], none, some [0, 1]]).2
    [(1:ℚ), 0] [[0, 1]] (by rfl)
  exact (h.2.2 (by norm_num [meanVec, vecSum, sumSq])).2

/-- C4 fails on the code as stated: create_profile increments the counter
and reads it back in two separate store operations, so in the interleaving
where two concurrent creations both increment before either reads, both
reads observe count 2 and both profiles get sequence number 2 — neither
pairwise distinct nor the contiguous range [1..2]. -/
theorem c4_counterexample :
    (create_profile_run
      [CreateProfileStep.inc 0, CreateProfileStep.inc 1,
       CreateProfileStep.readAssign 0, CreateProfileStep.readAssign 1]
      { count := 0, assigned := [] }).assigned = [(0, 2), (1, 2)] ∧
    ¬ ((create_profile_run
      [CreateProfileStep.inc 0, CreateProfileStep.inc 1,
       CreateProfileStep.readAssign 0, CreateProfileStep.readAssign 1]
      { count := 0, assigned := [] }).assigned.map Prod.snd).Nodup := by
  refine ⟨rfl, ?_⟩
  decide

/-- C4 (amended): the transactional intake path satisfies the claim — each
create_profile_from_intake runs its increment-and-read as one serializable
transaction, so any serialization of N intake creations starting from an
empty counter assigns exactly the contiguous range [1..N], pairwise
distinct.  The plain create_profile path is not a single atomic unit: its
separate increment and read allow duplicate numbers (see the
counterexample). -/
theorem c4_intake_sequence (pids : List ℕ) :
    (intake_run pids { count := 0, assigned := [] }).assigned.map Prod.snd =
      List.range' 1 pids.length 1 ∧
    ((intake_run pids { count := 0, assigned := [] }).assigned.map
      Prod.snd).Nodup := by
  have h := intake_run_assigned pids { count := 0, assigned := [] }
  simp only [List.map_nil, List.nil_append] at h
  refine ⟨h, ?_⟩
  rw [h]
  exact List.nodup_range' 1 pids.length 1 (by norm_num)

/-- C5: feedback for a sighting with no MatchResult fails NotFound leaving
the store unchanged; otherwise it overwrites the MatchResult status (and
the confirmed reference id when supplied), and derives the sighting status
from the feedback — matched for confirmed, no_match for rejected —
regardless of the sighting's previous status. -/
theorem c5_feedback (st : MatchStore) (sid : String) (ns : MatchStatus)
    (refId : Option String) :
    (lookupAssoc st.matchResults sid = none →
      submit_feedback st sid ns refId =
        (st, Except.error ApiError.notFound)) ∧
    (∀ prev mr, lookupAssoc st.sightings sid = some prev →
      lookupAssoc st.matchResults sid = some mr →
      ∃ mr2,
        (submit_feedback st sid ns refId).2 = Except.ok mr2 ∧
        mr2.status = ns ∧
        mr2.candidates = mr.candidates ∧
        (∀ r, refId = some r → mr2.confirmedProfileId = some r) ∧
        (refId = none → mr2.confirmedProfileId = mr.confirmedProfileId) ∧
        lookupAssoc (submit_feedback st sid ns refId).1.matchResults sid =
          some mr2 ∧
        (ns = MatchStatus.confirmed →
          lookupAssoc (submit_feedback st sid ns refId).1.sightings sid =
            some SightingStatus.matched) ∧
        (ns = MatchStatus.rejected →
          lookupAssoc (submit_feedback st sid ns refId).1.sightings sid =
            some SightingStatus.no_match)) := by
  constructor
  · intro hm
    cases hs : lookupAssoc st.sightings sid with
    | none => simp [submit_feedback, hs]
    | some prev => simp [submit_feedback, hs, update_match_feedback, hm]
  · intro prev mr hs hm
    refine ⟨{ mr with
        status := ns,
        confirmedProfileId :=
          match refId with
          | some r => some r
          | none => mr.confirmedProfileId }, ?_, rfl, rfl, ?_, ?_, ?_, ?_, ?_⟩
    · simp [submit_feedback, hs, update_match_feedback, hm]
    · intro r hr
      simp [hr]
    · intro hr
      simp [hr]
    · cases ns with
      | pending => simp [submit_feedback, hs, update_match_feedback, hm,
          lookupAssoc_setAssoc_self]
      | confirmed => simp [submit_feedback, hs, update_match_feedback, hm,
          lookupAssoc_setAssoc_self]
      | rejected => simp [submit_feedback, hs, update_match_feedback, hm,
          lookupAssoc_setAssoc_self]
    · intro hns
      subst hns
      simp [submit_feedback, hs, update_match_feedback, hm,
        lookupAssoc_setAssoc_self]
    · intro hns
      subst hns
      simp [submit_feedback, hs, update_match_feedback, hm,
        lookupAssoc_setAssoc_self]

/-- A concrete store for the feedback witness: one sighting previously in
no_match with a pending MatchResult. -/
def c5_store : MatchStore :=
  { sightings := [("s1", SightingStatus.no_match)],
    matchResults := [("s1",
      { candidates := [("p1", (9:ℚ)/10)],
        status := MatchStatus.pending,
        confirmedProfileId := none })] }

/-- Witness for c5_feedback: confirming feedback on c5_store succeeds,
stores the confirmed reference and flips the sighting to matched even
though it previously was no_match. -/
theorem c5_feedback_witness :
    ∃ mr2,
      (submit_feedback c5_store "s1" MatchStatus.confirmed (some "p1")).2 =
        Except.ok mr2 ∧
      mr2.status = MatchStatus.confirmed ∧
      mr2.candidates =
        ({ candidates := [("p1", (9:ℚ)/10)], status := MatchStatus.pending,
           confirmedProfileId := none } : MatchResult).candidates ∧
      (∀ r, (some "p1" : Option String) = some r →
        mr2.confirmedProfileId = some r) ∧
      ((some "p1" : Option String) = none →
        mr2.confirmedProfileId =
          ({ candidates := [("p1", (9:ℚ)/10)], status := MatchStatus.pending,
             confirmedProfileId := none } : MatchResult).confirmedProfileId) ∧
      lookupAssoc (submit_feedback c5_store "s1" MatchStatus.confirmed
          (some "p1")).1.matchResults "s1" = some mr2 ∧
      (MatchStatus.confirmed = MatchStatus.confirmed →
        lookupAssoc (submit_feedback c5_store "s1" MatchStatus.confirmed
            (some "p1")).1.sightings "s1" = some SightingStatus.matched) ∧
      (MatchStatus.confirmed = MatchStatus.rejected →
        lookupAssoc (submit_feedback c5_store "s1" MatchStatus.confirmed
            (some "p1")).1.sightings "s1" = some SightingStatus.no_match) :=
  (c5_feedback c5_store "s1" MatchStatus.confirmed (some "p1")).2
    SightingStatus.no_match
    { candidates := [("p1", (9:ℚ)/10)], status := MatchStatus.pending,
      confirmedProfileId := none } rfl rfl

/-- C8: for every collection state (the ordered, filtered id list, which is
duplicate-free since Firestore document ids are unique) and every page size
of at least 1, following next_cursor until it is null concatenates the
pages back to exactly the full collection — no duplicates, no omissions.
Each step fetches limit+1 records and, exactly when more than limit
remain, exposes the limit-th record's id as the next cursor and truncates
the page to limit. -/
theorem c8_pagination (coll : List String) (L : ℕ) (hL : 1 ≤ L)
    (hnd : coll.Nodup) :
    paginateAll coll L (coll.length + 1) none = coll ∧
    (∀ cursor r, cursorQuery coll cursor = r →
      (r.length ≤ L → list_profiles coll cursor L = (r, none)) ∧
      (L < r.length →
        list_profiles coll cursor L = (r.take L, r[L - 1]?))) := by
  refine ⟨?_, fun cursor r hq =>
    ⟨fun hr => list_profiles_full L hq hr, fun hr => list_profiles_more hq hr⟩⟩
  exact paginateAll_go coll L hL hnd (coll.length + 1) coll [] none rfl rfl
    (by omega)

/-- Witness for c8_pagination: paginating a three-element collection with
page size 2 reproduces it exactly. -/
theorem c8_pagination_witness :
    paginateAll ["a", "b", "c"] 2 4 none = ["a", "b", "c"] :=
  (c8_pagination ["a", "b", "c"] 2 (by norm_num) (by decide)).1

/-- C9: a photo upload for an absent profile fails NotFound, and an upload
for a profile whose photo_count has reached max_photos_per_profile fails
LimitExceeded; both errors are raised before any mutation, so the store —
in particular the profile's photo_count and photo records — is returned
unchanged. -/
theorem c9_photo_limit (st : ProfileStore) (pid photoId : String) :
    (lookupAssoc st.profiles pid = none →
      upload_photo st pid photoId = (st, Except.error ApiError.notFound)) ∧
    (∀ pr, lookupAssoc st.profiles pid = some pr →
      max_photos_per_profile ≤ pr.photoCount →
      upload_photo st pid photoId =
        (st, Except.error ApiError.limitExceeded)) := by
  constructor
  · intro h
    simp [upload_photo, h]
  · intro pr h hcount
    simp [upload_photo, h, hcount]

/-- A profile already holding five photos, for the quota witness. -/
def c9_profile : Profile :=
  { photoCount := 5, facePhotoId := none, hasEmbedding := false,
    embedding := none, modelVersion := none,
    photos := [("f1", { storagePath := "p1", angle := none }),
      ("f2", { storagePath := "p2", angle := none }),
      ("f3", { storagePath := "p3", angle := none }),
      ("f4", { storagePath := "p4", angle := none }),
      ("f5", { storagePath := "p5", angle := none })] }

/-- Witness for c9_photo_limit: a sixth upload onto c9_profile fails
LimitExceeded with the store unchanged. -/
theorem c9_photo_limit_witness :
    upload_photo { profiles := [("p", c9_profile)] } "p" "f6" =
      ({ profiles := [("p", c9_profile)] },
        Except.error ApiError.limitExceeded) :=
  (c9_photo_limit { profiles := [("p", c9_profile)] } "p" "f6").2
    c9_profile rfl (by decide)

/-- The soundness half of the profile embedding invariant that is stable
under the registry operations: a profile flagged has_embedding actually
stores an embedding vector. -/
def hasEmbedding_sound (pr : Profile) : Prop :=
  pr.hasEmbedding = true → pr.embedding ≠ none

/-- C10 (amended): photo addition and removal leave has_embedding and the
stored embedding untouched, and attaching an embedding sets both together,
so every registry operation preserves that has_embedding implies a stored
embedding; but removing the canonical photo clears face_photo_id while
leaving has_embedding and the embedding in place, so the stronger claimed
invariant — has_embedding only for an embedding derived from the currently
designated canonical photo — is not preserved by delete_photo_meta. -/
theorem c10_embedding_invariant (pr : Profile) (photoId storagePath : String)
    (angle : Option String) (ph : PhotoRec) (emb : List ℚ) (mv : String) :
    (hasEmbedding_sound pr →
      hasEmbedding_sound (add_photo_meta_profile photoId storagePath angle pr)) ∧
    (hasEmbedding_sound pr →
      hasEmbedding_sound (delete_photo_meta_profile photoId ph pr)) ∧
    hasEmbedding_sound (update_profile_embedding_profile emb mv pr) ∧
    (ph.angle = some "face" →
      (delete_photo_meta_profile photoId ph pr).facePhotoId = none ∧
      (delete_photo_meta_profile photoId ph pr).hasEmbedding =
        pr.hasEmbedding ∧
      (delete_photo_meta_profile photoId ph pr).embedding = pr.embedding) := by
  refine ⟨?_, ?_, ?_, ?_⟩
  · intro h hb
    exact h hb
  · intro h hb
    exact h hb
  · intro _
    simp [update_profile_embedding_profile]
  · intro hf
    simp [delete_photo_meta_profile, hf]

/-- A profile whose embedding was derived from its canonical photo f. -/
def c10_profile : Profile :=
  { photoCount := 1, facePhotoId := some "f", hasEmbedding := true,
    embedding := some [(1:ℚ)], modelVersion := some "v1",
    photos := [("f", { storagePath := "path1", angle := some "face" })] }

/-- The store holding c10_profile. -/
def c10_store : ProfileStore :=
  { profiles := [("p", c10_profile)] }

/-- c10_profile after its canonical photo is removed. -/
def c10_profile_after : Profile :=
  { photoCount := 0, facePhotoId := none, hasEmbedding := true,
    embedding := some [(1:ℚ)], modelVersion := some "v1", photos := [] }

/-- C10 fails on the code as stated: deleting the canonical photo of
c10_store's only profile clears face_photo_id yet leaves has_embedding true
with the embedding still stored, although no canonical photo remains — so
the operation does not preserve the claimed invariant that has_embedding
holds only for an embedding derived from the currently designated canonical
photo. -/
theorem c10_counterexample :
    delete_photo_meta c10_store "p" "f" =
      some ({ profiles := [("p", c10_profile_after)] }, "path1") ∧
    c10_profile_after.hasEmbedding = true ∧
    c10_profile_after.facePhotoId = none ∧
    c10_profile_after.embedding ≠ none := by
  refine ⟨rfl, rfl, rfl, by simp [c10_profile_after]⟩

/-- Witness for c10_embedding_invariant: removing the canonical photo of
c10_profile clears face_photo_id but changes neither has_embedding nor the
stored embedding. -/
theorem c10_embedding_invariant_witness :
    (delete_photo_meta_profile "f"
      { storagePath := "path1", angle := some "face" } c10_profile).facePhotoId =
        none ∧
    (delete_photo_meta_profile "f"
      { storagePath := "path1", angle := some "face" } c10_profile).hasEmbedding =
        c10_profile.hasEmbedding ∧
    (delete_photo_meta_profile "f"
      { storagePath := "path1", angle := some "face" } c10_profile).embedding =
        c10_profile.embedding :=
  (c10_embedding_invariant c10_profile "f" "sp" none
    { storagePath := "path1", angle := some "face" } [(1:ℚ)] "v1").2.2.2 rfl
